import Mathlib

/-!
Shallow embedding of the core of `ssh-agent-mux` (an SSH agent multiplexer
daemon written in Rust) for checking its natural-language specification.

Modelling conventions:
* `PathBuf` values handled by the registry and the control plane are modelled
  as `String` (the control plane receives them as strings and converts with
  `PathBuf::from`, and `display()` is the identity on such paths).
* `SystemTime` instants are modelled as `Nat`; `SystemTime::now()` becomes an
  explicit timestamp argument threaded to the operations that call it.
* Filesystem queries (`Path::exists`) are modelled by an explicit oracle
  `fs : String → Bool` passed to the functions that perform them.
* `std::collections::HashMap` iteration order is unspecified.  The
  `watched_sockets` map is therefore modelled as a duplicate-free list holding
  the map's current iteration order, and reachability of registry states
  includes `rehash` steps permuting that list arbitrarily.
-/

namespace SshAgentMux

/-- Embeds `WatchedSocket` from `src/socket_manager.rs`. -/
structure WatchedSocket where
  path : String
  created_at : Nat
  last_healthy : Option Bool
  last_health_check : Option Nat
  key_count : Option Nat
deriving DecidableEq, Repr

/-- Embeds `WatchedSocket::new`: fresh entry with `created_at = now` (the
timestamp is the explicit model of `SystemTime::now()`). -/
def WatchedSocket.mk_new (t : Nat) (p : String) : WatchedSocket :=
  { path := p, created_at := t, last_healthy := none,
    last_health_check := none, key_count := none }

/-- Embeds `SocketManager` from `src/socket_manager.rs`.  The
`watched_sockets` list is the `HashMap` contents in its current (unspecified)
iteration order; the keys (paths) are unique in every reachable state. -/
structure SocketManager where
  configured_sockets : List String
  watched_sockets : List WatchedSocket
  daemon_start_time : Nat
  last_health_check : Option Nat
deriving DecidableEq, Repr

/-- Embeds `SocketManager::new` (with the construction instant explicit). -/
def SocketManager.mk_new (configured : List String) (t0 : Nat) : SocketManager :=
  { configured_sockets := configured, watched_sockets := [],
    daemon_start_time := t0, last_health_check := none }

/-- The comparator of `get_ordered_sockets`:
`watched.sort_by(|a, b| b.created_at.cmp(&a.created_at))`, i.e. sort into
descending `created_at` order. -/
def watchedGE (a b : WatchedSocket) : Prop :=
  b.created_at ≤ a.created_at

instance : DecidableRel watchedGE := fun a b => Nat.decLe b.created_at a.created_at

instance : IsTotal WatchedSocket watchedGE :=
  ⟨fun a b => Nat.le_total b.created_at a.created_at⟩

instance : IsTrans WatchedSocket watchedGE :=
  ⟨fun _ _ _ hab hbc => Nat.le_trans hbc hab⟩

/-- Embeds `SocketManager::get_ordered_sockets`: watched entries stably
sorted newest-first, then configured entries in order.  Rust's `sort_by` is a
stable sort; `List.insertionSort` is also stable, and any two stable sorts
under the same comparator produce the same list. -/
def SocketManager.get_ordered_sockets (m : SocketManager) : List String :=
  ((m.watched_sockets.insertionSort watchedGE).map (·.path)) ++ m.configured_sockets

/-- Embeds `SocketManager::uptime_secs`. -/
def SocketManager.uptime_secs (now : Nat) (m : SocketManager) : Nat :=
  now - m.daemon_start_time

/-- Embeds `SocketManager::is_watched` (`HashMap::contains_key`). -/
def SocketManager.is_watched (m : SocketManager) (p : String) : Bool :=
  m.watched_sockets.any (fun w => w.path == p)

/-- Embeds `SocketManager::is_configured` (`Vec::contains`). -/
def SocketManager.is_configured (m : SocketManager) (p : String) : Bool :=
  m.configured_sockets.contains p

/-- Embeds `SocketManager::add_watched`: returns `false` and leaves the state
unchanged when the path is already a key of `watched_sockets`; otherwise
inserts a fresh entry (`created_at = now`) and returns `true`.  It does not
consult `configured_sockets`. -/
def SocketManager.add_watched (t : Nat) (p : String) (m : SocketManager) :
    Bool × SocketManager :=
  if m.is_watched p then (false, m)
  else (true, { m with watched_sockets := m.watched_sockets ++ [WatchedSocket.mk_new t p] })

/-- Embeds `SocketManager::remove_watched` (`HashMap::remove`): returns
whether the key was present; `configured_sockets` is untouched. -/
def SocketManager.remove_watched (p : String) (m : SocketManager) :
    Bool × SocketManager :=
  if m.is_watched p then
    (true, { m with watched_sockets := m.watched_sockets.filter (fun w => w.path ≠ p) })
  else (false, m)

/-- Embeds `SocketManager::update_configured`: wholesale replacement of the
configured sequence; `watched_sockets` untouched. -/
def SocketManager.update_configured (l : List String) (m : SocketManager) :
    SocketManager :=
  { m with configured_sockets := l }

/-- Embeds `SocketManager::update_socket_health`: stamps the three fields of
the watched entry for `p` when present; in all cases (watched or not) also
stamps the manager-level `last_health_check = Some(SystemTime::now())`. -/
def SocketManager.update_socket_health (t : Nat) (p : String) (healthy : Bool)
    (kc : Option Nat) (m : SocketManager) : SocketManager :=
  { m with
    watched_sockets := m.watched_sockets.map (fun w =>
      if w.path = p then
        { w with last_healthy := some healthy, last_health_check := some t,
                 key_count := kc }
      else w),
    last_health_check := some t }

/-- Embeds `SocketManager::validate_and_cleanup`: retains watched entries
whose path exists (per the filesystem oracle `fs`), returns the removed paths
in iteration order. -/
def SocketManager.validate_and_cleanup (fs : String → Bool) (m : SocketManager) :
    List String × SocketManager :=
  ((m.watched_sockets.filter (fun w => !fs w.path)).map (·.path),
   { m with watched_sockets := m.watched_sockets.filter (fun w => fs w.path) })

/-- Embeds `SocketManager::watched_count`. -/
def SocketManager.watched_count (m : SocketManager) : Nat :=
  m.watched_sockets.length

/-- Embeds `SocketManager::configured_count`. -/
def SocketManager.configured_count (m : SocketManager) : Nat :=
  m.configured_sockets.length

/-- Embeds `SocketManager::total_count`. -/
def SocketManager.total_count (m : SocketManager) : Nat :=
  m.watched_count + m.configured_count

/-- The registry's public mutating API, as invoked by discovery, the
control plane (`AddSocket` / `RemoveSocket`), the SIGHUP reload path
(`update_configured`) and the health plumbing. -/
inductive RegOp where
  | addW (p : String) (t : Nat)
  | removeW (p : String)
  | updateConf (l : List String)
  | updateHealth (p : String) (healthy : Bool) (kc : Option Nat) (t : Nat)
deriving DecidableEq, Repr

/-- Deterministic effect of one registry API call, given the map in its
current iteration order (a fresh `HashMap` insertion is placed at the end;
`Reaches.rehash` below accounts for the order being unspecified). -/
def applyOp : RegOp → SocketManager → SocketManager
  | .addW p t, m => (m.add_watched t p).2
  | .removeW p, m => (m.remove_watched p).2
  | .updateConf l, m => m.update_configured l
  | .updateHealth p h kc t, m => m.update_socket_health t p h kc

/-- Registry states reachable from `m` by the recorded sequence of public
API calls.  `rehash` steps model that `HashMap` iteration order is
unspecified and may change between observations; they consume no API call. -/
inductive Reaches : SocketManager → List RegOp → SocketManager → Prop where
  | refl (m : SocketManager) : Reaches m [] m
  | step {m m₁ : SocketManager} {ops : List RegOp} (op : RegOp) :
      Reaches m ops m₁ → Reaches m (ops ++ [op]) (applyOp op m₁)
  | rehash {m m₁ : SocketManager} {ops : List RegOp} {w : List WatchedSocket} :
      Reaches m ops m₁ → m₁.watched_sockets.Perm w →
      Reaches m ops { m₁ with watched_sockets := w }

/-- Key invariant of the `watched_sockets` map: keys are unique. -/
def WatchedNodup (m : SocketManager) : Prop :=
  (m.watched_sockets.map (·.path)).Nodup

lemma is_watched_eq_mem (m : SocketManager) (p : String) :
    m.is_watched p = true ↔ p ∈ m.watched_sockets.map (·.path) := by
  constructor
  · intro h
    rcases List.any_eq_true.mp h with ⟨w, hw, hbeq⟩
    exact List.mem_map.mpr ⟨w, hw, by simpa using hbeq⟩
  · intro h
    rcases List.mem_map.mp h with ⟨w, hw, hbeq⟩
    exact List.any_eq_true.mpr ⟨w, hw, by simp [hbeq]⟩

lemma applyOp_nodup (op : RegOp) (m : SocketManager) (h : WatchedNodup m) :
    WatchedNodup (applyOp op m) := by
  cases op with
  | addW p t =>
    by_cases hw : m.is_watched p = true
    · simp [applyOp, SocketManager.add_watched, hw, h]
    · have hnm : p ∉ m.watched_sockets.map (·.path) := by
        intro hmem
        exact hw ((is_watched_eq_mem m p).mpr hmem)
      simp only [applyOp, SocketManager.add_watched, hw, if_neg, Bool.false_eq_true,
        if_false]
      unfold WatchedNodup at h ⊢
      have hnm' : ∀ w ∈ m.watched_sockets, ¬w.path = p := by
        intro w hwmem hwp
        exact hnm (List.mem_map.mpr ⟨w, hwmem, hwp⟩)
      simpa [WatchedSocket.mk_new, List.nodup_append] using ⟨h, hnm'⟩
  | removeW p =>
    unfold WatchedNodup at h ⊢
    by_cases hw : m.is_watched p = true
    · simp only [applyOp, SocketManager.remove_watched, hw, if_pos]
      exact h.sublist ((List.filter_sublist m.watched_sockets).map (·.path))
    · simp [applyOp, SocketManager.remove_watched, hw, h]
  | updateConf l => simpa [applyOp, SocketManager.update_configured, WatchedNodup] using h
  | updateHealth p he kc t =>
    unfold WatchedNodup at h ⊢
    have hmap : (m.watched_sockets.map (fun w =>
        if w.path = p then
          { w with last_healthy := some he, last_health_check := some t,
                   key_count := kc }
        else w)).map (·.path) = m.watched_sockets.map (·.path) := by
      induction m.watched_sockets with
      | nil => rfl
      | cons w ws ih =>
        by_cases hp : w.path = p <;> simp [hp, ih]
    simpa [applyOp, SocketManager.update_socket_health, hmap] using h

lemma Reaches.nodup {cfg : List String} {t0 : Nat} {ops : List RegOp}
    {m : SocketManager} (h : Reaches (SocketManager.mk_new cfg t0) ops m) :
    WatchedNodup m := by
  induction h with
  | refl => simp [WatchedNodup, SocketManager.mk_new]
  | step op _ ih => exact applyOp_nodup op _ ih
  | rehash _ hperm ih =>
    unfold WatchedNodup at ih ⊢
    exact (hperm.map (·.path)).nodup_iff.mp ih

lemma update_health_map_path (t : Nat) (p : String) (healthy : Bool)
    (kc : Option Nat) (ws : List WatchedSocket) :
    (ws.map (fun w =>
      if w.path = p then
        { w with last_healthy := some healthy, last_health_check := some t,
                 key_count := kc }
      else w)).map (·.path) = ws.map (·.path) := by
  induction ws with
  | nil => rfl
  | cons w l ih => by_cases hp : w.path = p <;> simp [hp, ih]

lemma update_health_map_created (t : Nat) (p : String) (healthy : Bool)
    (kc : Option Nat) (ws : List WatchedSocket) :
    (ws.map (fun w =>
      if w.path = p then
        { w with last_healthy := some healthy, last_health_check := some t,
                 key_count := kc }
      else w)).map (·.created_at) = ws.map (·.created_at) := by
  induction ws with
  | nil => rfl
  | cons w l ih => by_cases hp : w.path = p <;> simp [hp, ih]

lemma update_health_map_id (t : Nat) (p : String) (healthy : Bool)
    (kc : Option Nat) (ws : List WatchedSocket)
    (h : ∀ w ∈ ws, ¬w.path = p) :
    ws.map (fun w =>
      if w.path = p then
        { w with last_healthy := some healthy, last_health_check := some t,
                 key_count := kc }
      else w) = ws := by
  induction ws with
  | nil => rfl
  | cons w l ih =>
    have hw := h w (by simp)
    simp only [List.map_cons, if_neg hw]
    rw [ih (fun w' hw' => h w' (List.mem_cons_of_mem w hw'))]

/-- C1 (amended).  In every reachable registry state, `get_ordered_sockets`
returns the watched entries stably sorted into descending `created_at` order
(ties left in the map's unspecified iteration order), followed by the
configured entries in their current order; each watched path appears exactly
once in the watched segment. -/
theorem c1_ordered_view (cfg : List String) (t0 : Nat) (ops : List RegOp)
    (m : SocketManager) (h : Reaches (SocketManager.mk_new cfg t0) ops m) :
    ∃ w : List WatchedSocket,
      w.Perm m.watched_sockets ∧
      List.Pairwise (fun a b => b.created_at ≤ a.created_at) w ∧
      m.get_ordered_sockets = w.map (·.path) ++ m.configured_sockets ∧
      (w.map (·.path)).Nodup := by
  refine ⟨m.watched_sockets.insertionSort watchedGE,
    List.perm_insertionSort watchedGE m.watched_sockets,
    List.sorted_insertionSort watchedGE m.watched_sockets, rfl, ?_⟩
  exact (List.Perm.nodup_iff (List.Perm.map (fun w : WatchedSocket => w.path)
    (List.perm_insertionSort watchedGE m.watched_sockets))).mpr h.nodup

/-- Witness for `c1_ordered_view` at a concrete reachable state. -/
theorem c1_ordered_view_witness :
    ∃ w : List WatchedSocket,
      w.Perm (SocketManager.mk_new ["c"] 0).watched_sockets ∧
      List.Pairwise (fun a b => b.created_at ≤ a.created_at) w ∧
      (SocketManager.mk_new ["c"] 0).get_ordered_sockets =
        w.map (·.path) ++ (SocketManager.mk_new ["c"] 0).configured_sockets ∧
      (w.map (·.path)).Nodup :=
  c1_ordered_view ["c"] 0 [] (SocketManager.mk_new ["c"] 0)
    (Reaches.refl (SocketManager.mk_new ["c"] 0))

/-- A state produced by the call sequence `add_watched "a"`, `add_watched
"b"` with equal `created_at` instants, in one possible map iteration order. -/
def c1_state_ins : SocketManager :=
  applyOp (.addW "b" 5) (applyOp (.addW "a" 5) (SocketManager.mk_new [] 0))

/-- The same state in the opposite map iteration order. -/
def c1_state_swp : SocketManager :=
  { c1_state_ins with
    watched_sockets := [WatchedSocket.mk_new 5 "b", WatchedSocket.mk_new 5 "a"] }

/-- C1 counterexample.  Two registry states reachable by the *same* sequence
of `add_watched` calls (with equal `created_at` instants) yield different
`get_ordered_sockets` results, because a `created_at` tie is broken by the
`HashMap`'s unspecified iteration order, not by insertion order.  Hence the
ordered view is not the claimed function of the call history. -/
theorem c1_ties_counterexample :
    Reaches (SocketManager.mk_new [] 0) [.addW "a" 5, .addW "b" 5] c1_state_ins ∧
    Reaches (SocketManager.mk_new [] 0) [.addW "a" 5, .addW "b" 5] c1_state_swp ∧
    c1_state_ins.get_ordered_sockets = ["a", "b"] ∧
    c1_state_swp.get_ordered_sockets = ["b", "a"] := by
  refine ⟨?_, ?_, by decide, by decide⟩
  · exact Reaches.step _ (Reaches.step _ (Reaches.refl _))
  · exact Reaches.rehash (Reaches.step _ (Reaches.step _ (Reaches.refl _)))
      (List.Perm.swap (WatchedSocket.mk_new 5 "b") (WatchedSocket.mk_new 5 "a") [])

/-- No path is simultaneously watched and configured. -/
def DisjointTracking (m : SocketManager) : Prop :=
  ∀ p : String, ¬(m.is_watched p = true ∧ m.is_configured p = true)

/-- The guard under which one registry call preserves `DisjointTracking`:
`add_watched` must not receive a currently-configured path, and
`update_configured` must not receive a currently-watched path. -/
def opRespects (m : SocketManager) : RegOp → Prop
  | .addW p _ => m.is_configured p = false
  | .updateConf l => ∀ q ∈ l, m.is_watched q = false
  | _ => True

/-- A state reachable via `add_watched "p"` followed by `update_configured
["p"]` (the SIGHUP reload path). -/
def c2_state : SocketManager :=
  applyOp (.updateConf ["p"]) (applyOp (.addW "p" 0) (SocketManager.mk_new [] 0))

/-- C2 counterexample.  A path can be simultaneously watched and configured
in a state reachable through the public API: `add_watched` does not consult
`configured_sockets` and `update_configured` does not purge
`watched_sockets`. -/
theorem c2_overlap_counterexample :
    Reaches (SocketManager.mk_new [] 0) [.addW "p" 0, .updateConf ["p"]] c2_state ∧
    c2_state.is_watched "p" = true ∧ c2_state.is_configured "p" = true :=
  ⟨Reaches.step _ (Reaches.step _ (Reaches.refl _)), by decide, by decide⟩

/-- C2 (amended).  Removing a path from watched, and adding a watched path,
never change the configured sequence; and disjointness of watched and
configured is preserved by every registry call whose argument respects the
guard (`add_watched` of a non-configured path, `update_configured` with a
watched-free list), as well as by map-iteration-order changes.  It is *not*
an unconditional invariant (see `c2_overlap_counterexample`). -/
theorem c2_frame_and_guarded_disjoint :
    (∀ (m : SocketManager) (p : String) (t : Nat),
      ((m.remove_watched p).2).configured_sockets = m.configured_sockets ∧
      ((m.add_watched t p).2).configured_sockets = m.configured_sockets) ∧
    (∀ (m : SocketManager) (op : RegOp),
      DisjointTracking m → opRespects m op → DisjointTracking (applyOp op m)) ∧
    (∀ (m : SocketManager) (w : List WatchedSocket),
      m.watched_sockets.Perm w → DisjointTracking m →
      DisjointTracking { m with watched_sockets := w }) := by
  refine ⟨?_, ?_, ?_⟩
  · intro m p t
    constructor
    · by_cases hw : m.is_watched p = true <;>
        simp [SocketManager.remove_watched, hw]
    · by_cases hw : m.is_watched p = true <;>
        simp [SocketManager.add_watched, hw]
  · intro m op hd hg q hq
    cases op with
    | addW p t =>
      simp only [opRespects] at hg
      by_cases hw : m.is_watched p = true
      · exact hd q (by simpa [applyOp, SocketManager.add_watched, hw] using hq)
      · rcases hq with ⟨hq1, hq2⟩
        have hq2' : m.is_configured q = true := by
          simpa [applyOp, SocketManager.add_watched, hw, SocketManager.is_configured] using hq2
        have hq1' : q ∈ (m.watched_sockets ++ [WatchedSocket.mk_new t p]).map (·.path) := by
          have := (is_watched_eq_mem (applyOp (.addW p t) m) q).mp hq1
          simpa [applyOp, SocketManager.add_watched, hw] using this
        rcases (by simpa [WatchedSocket.mk_new] using hq1' :
            q ∈ m.watched_sockets.map (·.path) ∨ q = p) with hmem | hqp
        · exact hd q ⟨(is_watched_eq_mem m q).mpr hmem, hq2'⟩
        · rw [hqp] at hq2'
          rw [hg] at hq2'
          exact Bool.noConfusion hq2'
    | removeW p =>
      rcases hq with ⟨hq1, hq2⟩
      by_cases hw : m.is_watched p = true
      · have hq2' : m.is_configured q = true := by
          simpa [applyOp, SocketManager.remove_watched, hw, SocketManager.is_configured] using hq2
        have hq1' : q ∈ (m.watched_sockets.filter (fun w => w.path ≠ p)).map (·.path) := by
          have := (is_watched_eq_mem (applyOp (.removeW p) m) q).mp hq1
          simpa [applyOp, SocketManager.remove_watched, hw] using this
        rcases List.mem_map.mp hq1' with ⟨w, hwmem, hwq⟩
        have hmem : q ∈ m.watched_sockets.map (·.path) :=
          List.mem_map.mpr ⟨w, List.mem_of_mem_filter hwmem, hwq⟩
        exact hd q ⟨(is_watched_eq_mem m q).mpr hmem, hq2'⟩
      · refine hd q ⟨by simpa [applyOp, SocketManager.remove_watched, hw] using hq1, ?_⟩
        simpa [applyOp, SocketManager.remove_watched, hw] using hq2
    | updateConf l =>
      simp only [opRespects] at hg
      rcases hq with ⟨hq1, hq2⟩
      have hq1' : m.is_watched q = true := hq1
      have hq2' : q ∈ l := by
        simpa [applyOp, SocketManager.update_configured, SocketManager.is_configured] using hq2
      rw [hg q hq2'] at hq1'
      exact Bool.noConfusion hq1'
    | updateHealth p he kc t =>
      rcases hq with ⟨hq1, hq2⟩
      have hq2' : m.is_configured q = true := hq2
      have hmem : q ∈ (applyOp (.updateHealth p he kc t) m).watched_sockets.map (·.path) :=
        (is_watched_eq_mem _ q).mp hq1
      have hrw : (applyOp (.updateHealth p he kc t) m).watched_sockets.map (·.path) =
          m.watched_sockets.map (·.path) :=
        update_health_map_path t p he kc m.watched_sockets
      rw [hrw] at hmem
      exact hd q ⟨(is_watched_eq_mem m q).mpr hmem, hq2'⟩
  · intro m w hperm hd q hq
    rcases hq with ⟨hq1, hq2⟩
    have hq2' : m.is_configured q = true := hq2
    have hmem0 : q ∈ w.map (·.path) :=
      (is_watched_eq_mem { m with watched_sockets := w } q).mp hq1
    have hmem : q ∈ m.watched_sockets.map (·.path) :=
      (List.Perm.mem_iff (List.Perm.map (fun x : WatchedSocket => x.path) hperm)).mpr hmem0
    exact hd q ⟨(is_watched_eq_mem m q).mpr hmem, hq2'⟩

/-- Witness for `c2_frame_and_guarded_disjoint` at a concrete state and call. -/
theorem c2_frame_and_guarded_disjoint_witness :
    ((SocketManager.mk_new ["c"] 0).remove_watched "c").2.configured_sockets =
      (SocketManager.mk_new ["c"] 0).configured_sockets ∧
    DisjointTracking (applyOp (.addW "w" 3) (SocketManager.mk_new ["c"] 0)) := by
  have h := c2_frame_and_guarded_disjoint
  refine ⟨(h.1 (SocketManager.mk_new ["c"] 0) "c" 0).1, ?_⟩
  refine h.2.1 (SocketManager.mk_new ["c"] 0) (.addW "w" 3) ?_
    (by simp only [opRespects]; decide)
  intro p hp
  exact absurd hp.1 (by simp [SocketManager.mk_new, SocketManager.is_watched])

/-- C8 counterexample.  `update_socket_health` on a non-watched path is *not*
a no-op on the registry state: it stamps the manager-level
`last_health_check` unconditionally. -/
theorem c8_counterexample :
    (SocketManager.mk_new [] 0).is_watched "q" = false ∧
    (SocketManager.mk_new [] 0).update_socket_health 5 "q" true none ≠
      SocketManager.mk_new [] 0 ∧
    ((SocketManager.mk_new [] 0).update_socket_health 5 "q" true none).last_health_check =
      some 5 := by
  refine ⟨by decide, by decide, by decide⟩

/-- C8 (amended).  `update_socket_health(p, healthy, key_count)` always
stamps the manager-level `last_health_check`; it never changes the
configured sequence, the start time, the set or order of watched paths, or
any `created_at`; when `p` is not watched the watched list is completely
unchanged; and the entry for `p` (when present) gets exactly the new
`last_healthy`, `last_health_check` and `key_count`, all other watched
entries being untouched. -/
theorem c8_update_health_frame (m : SocketManager) (p : String) (hb : Bool)
    (kc : Option Nat) (t : Nat) :
    ((m.update_socket_health t p hb kc).configured_sockets = m.configured_sockets) ∧
    ((m.update_socket_health t p hb kc).daemon_start_time = m.daemon_start_time) ∧
    ((m.update_socket_health t p hb kc).last_health_check = some t) ∧
    ((m.update_socket_health t p hb kc).watched_sockets.map (·.path) =
      m.watched_sockets.map (·.path)) ∧
    ((m.update_socket_health t p hb kc).watched_sockets.map (·.created_at) =
      m.watched_sockets.map (·.created_at)) ∧
    (m.is_watched p = false →
      (m.update_socket_health t p hb kc).watched_sockets = m.watched_sockets) ∧
    (∀ w ∈ m.watched_sockets, w.path ≠ p →
      w ∈ (m.update_socket_health t p hb kc).watched_sockets) ∧
    (∀ w' ∈ (m.update_socket_health t p hb kc).watched_sockets, w'.path = p →
      w'.last_healthy = some hb ∧ w'.last_health_check = some t ∧
      w'.key_count = kc) := by
  refine ⟨rfl, rfl, rfl, update_health_map_path t p hb kc m.watched_sockets,
    update_health_map_created t p hb kc m.watched_sockets, ?_, ?_, ?_⟩
  · intro hnw
    have hall : ∀ w ∈ m.watched_sockets, ¬w.path = p := by
      intro w hw hwp
      have : m.is_watched p = true :=
        (is_watched_eq_mem m p).mpr (List.mem_map.mpr ⟨w, hw, hwp⟩)
      exact absurd this (by simp [hnw])
    exact update_health_map_id t p hb kc m.watched_sockets hall
  · intro w hw hwp
    show w ∈ m.watched_sockets.map _
    refine List.mem_map.mpr ⟨w, hw, ?_⟩
    simp [hwp]
  · intro w' hw' hwp
    rcases List.mem_map.mp hw' with ⟨w, _, hweq⟩
    by_cases hp : w.path = p
    · simp only [if_pos hp] at hweq
      subst hweq
      exact ⟨rfl, rfl, rfl⟩
    · simp only [if_neg hp] at hweq
      subst hweq
      exact absurd hwp hp

/-- Witness for `c8_update_health_frame` at a concrete watched entry. -/
theorem c8_update_health_frame_witness :
    (((SocketManager.mk_new [] 0).add_watched 1 "p").2.update_socket_health 5 "p" true
        (some 2)).last_health_check = some 5 ∧
    (((SocketManager.mk_new [] 0).add_watched 1 "p").2.update_socket_health 5 "p" true
        (some 2)).watched_sockets.map (·.path) =
      ((SocketManager.mk_new [] 0).add_watched 1 "p").2.watched_sockets.map (·.path) :=
  ⟨(c8_update_health_frame ((SocketManager.mk_new [] 0).add_watched 1 "p").2 "p" true
      (some 2) 5).2.2.1,
   (c8_update_health_frame ((SocketManager.mk_new [] 0).add_watched 1 "p").2 "p" true
      (some 2) 5).2.2.2.1⟩

/-! Section: Socket information projection (`get_socket_info`) -/

/-- Embeds `SocketSource` from `src/control/protocol.rs`. -/
inductive SocketSource where
  | Configured
  | Watched
deriving DecidableEq, Repr

/-- Embeds `SocketInfo` from `src/control/protocol.rs` (timestamps are the
RFC 3339 strings produced by `format_system_time`). -/
structure SocketInfo where
  path : String
  source : SocketSource
  added_at : Option String
  healthy : Bool
  last_health_check : Option String
  key_count : Option Nat
  order : Nat
deriving DecidableEq, Repr

/-- Embeds `format_system_time` from `src/socket_manager.rs`.  The chrono
RFC 3339 rendering is modelled as an opaque injective encoding of the
instant; no claim depends on the concrete text. -/
def format_system_time (t : Nat) : String :=
  toString t

/-- The watched-sockets loop of `SocketManager::get_socket_info`, with the
running `order` counter explicit.  `healthy` is
`socket.last_healthy.unwrap_or(socket.path.exists())`. -/
def mkWatchedInfos (fs : String → Bool) : List WatchedSocket → Nat → List SocketInfo
  | [], _ => []
  | w :: ws, ord =>
    { path := w.path, source := .Watched,
      added_at := some (format_system_time w.created_at),
      healthy := w.last_healthy.getD (fs w.path),
      last_health_check := w.last_health_check.map format_system_time,
      key_count := w.key_count, order := ord } :: mkWatchedInfos fs ws (ord + 1)

/-- The configured-sockets loop of `SocketManager::get_socket_info`:
`healthy` is `path.exists()`. -/
def mkConfiguredInfos (fs : String → Bool) : List String → Nat → List SocketInfo
  | [], _ => []
  | p :: ps, ord =>
    { path := p, source := .Configured, added_at := none, healthy := fs p,
      last_health_check := none, key_count := none, order := ord } ::
      mkConfiguredInfos fs ps (ord + 1)

/-- Embeds `SocketManager::get_socket_info`: watched entries sorted newest
first, then configured entries, with a 1-based `order` counter running
through both. -/
def SocketManager.get_socket_info (fs : String → Bool) (m : SocketManager) :
    List SocketInfo :=
  mkWatchedInfos fs (m.watched_sockets.insertionSort watchedGE) 1 ++
    mkConfiguredInfos fs m.configured_sockets
      ((m.watched_sockets.insertionSort watchedGE).length + 1)

lemma mem_mkWatchedInfos (fs : String → Bool) (ws : List WatchedSocket)
    (ord : Nat) (w : WatchedSocket) (h : w ∈ ws) :
    ∃ si ∈ mkWatchedInfos fs ws ord,
      si.path = w.path ∧ si.source = .Watched ∧
      si.healthy = w.last_healthy.getD (fs w.path) := by
  induction ws generalizing ord with
  | nil => cases h
  | cons w0 l ih =>
    rcases List.mem_cons.mp h with h0 | hmem
    · subst h0
      exact ⟨_, List.mem_cons_self _ _, rfl, rfl, rfl⟩
    · rcases ih (ord + 1) hmem with ⟨si, hsi, hprops⟩
      exact ⟨si, List.mem_cons_of_mem _ hsi, hprops⟩

lemma mem_mkConfiguredInfos (fs : String → Bool) (ps : List String)
    (ord : Nat) (p : String) (h : p ∈ ps) :
    ∃ si ∈ mkConfiguredInfos fs ps ord,
      si.path = p ∧ si.source = .Configured ∧ si.healthy = fs p := by
  induction ps generalizing ord with
  | nil => cases h
  | cons p0 l ih =>
    rcases List.mem_cons.mp h with h0 | hmem
    · subst h0
      exact ⟨_, List.mem_cons_self _ _, rfl, rfl, rfl⟩
    · rcases ih (ord + 1) hmem with ⟨si, hsi, hprops⟩
      exact ⟨si, List.mem_cons_of_mem _ hsi, hprops⟩

/-- A state reachable by `add_watched "p"` followed by a successful health
probe of `"p"` (`update_socket_health("p", true, ..)`). -/
def c3_state : SocketManager :=
  applyOp (.updateHealth "p" true none 1) (applyOp (.addW "p" 0) (SocketManager.mk_new [] 0))

/-- C3 counterexample.  A watched socket whose most recent probe succeeded is
reported healthy by `get_socket_info` even though its path no longer exists
on disk (the filesystem oracle answers `false` for every path): the code
computes `last_healthy.unwrap_or(path.exists())`, not
`path.exists() && last_healthy`. -/
theorem c3_counterexample :
    Reaches (SocketManager.mk_new [] 0) [.addW "p" 0, .updateHealth "p" true none 1]
      c3_state ∧
    c3_state.watched_sockets.map (·.last_healthy) = [some true] ∧
    (fun _ : String => false) "p" = false ∧
    (c3_state.get_socket_info (fun _ => false)).map (·.healthy) = [true] :=
  ⟨Reaches.step _ (Reaches.step _ (Reaches.refl _)), by decide, rfl, by decide⟩

/-- C3 (amended).  In `get_socket_info`, a watched entry's `healthy` flag
equals the most recent probe result when one exists — regardless of whether
the path still exists — and equals path-existence when the entry has never
been probed; a configured entry's `healthy` flag is path-existence. -/
theorem c3_healthy_flag (fs : String → Bool) (m : SocketManager) :
    (∀ w ∈ m.watched_sockets, ∃ si ∈ m.get_socket_info fs,
      si.path = w.path ∧ si.source = .Watched ∧
      si.healthy = w.last_healthy.getD (fs w.path) ∧
      (w.last_healthy = none → si.healthy = fs w.path) ∧
      (∀ b, w.last_healthy = some b → si.healthy = b)) ∧
    (∀ p ∈ m.configured_sockets, ∃ si ∈ m.get_socket_info fs,
      si.path = p ∧ si.source = .Configured ∧ si.healthy = fs p) := by
  constructor
  · intro w hw
    have hw' : w ∈ m.watched_sockets.insertionSort watchedGE :=
      (List.Perm.mem_iff (List.perm_insertionSort watchedGE m.watched_sockets)).mpr hw
    rcases mem_mkWatchedInfos fs _ 1 w hw' with ⟨si, hsi, h1, h2, h3⟩
    refine ⟨si, List.mem_append_left _ hsi, h1, h2, h3, ?_, ?_⟩
    · intro hnone; rw [h3, hnone]; rfl
    · intro b hsome; rw [h3, hsome]; rfl
  · intro p hp
    rcases mem_mkConfiguredInfos fs _ _ p hp with ⟨si, hsi, h1, h2, h3⟩
    exact ⟨si, List.mem_append_right _ hsi, h1, h2, h3⟩

/-- Witness for `c3_healthy_flag` at a concrete registry. -/
theorem c3_healthy_flag_witness :
    ∃ si ∈ (SocketManager.mk_new ["c"] 0).get_socket_info (fun _ => true),
      si.path = "c" ∧ si.source = .Configured ∧
      si.healthy = (fun _ : String => true) "c" :=
  (c3_healthy_flag (fun _ => true) (SocketManager.mk_new ["c"] 0)).2 "c" (by simp [SocketManager.mk_new])

/-! Section: Forwarded-agent path predicate (`src/watcher.rs`) -/

/-- One component of a Rust `Path`, after the normalisation `components()`
performs (`.` components are elided). -/
inductive PathComp where
  | normal (s : String)
  | parentDir
deriving DecidableEq, Repr

/-- A Rust `Path`, modelled as a root flag plus its components. -/
structure RPath where
  absolute : Bool
  comps : List PathComp
deriving DecidableEq, Repr

/-- Models `Path::file_name`: the last component when it is a normal
component; `None` for the root, the empty path, or a path ending in `..`. -/
def RPath.fileName (p : RPath) : Option String :=
  match p.comps.getLast? with
  | some (.normal s) => some s
  | _ => none

/-- Models `Path::parent`: strips the last component; `None` for the root
and the empty path. -/
def RPath.parent (p : RPath) : Option RPath :=
  match p.comps with
  | [] => none
  | _ => some { absolute := p.absolute, comps := p.comps.dropLast }

/-- The literal `Path::new("/tmp")`. -/
def tmpDir : RPath :=
  { absolute := true, comps := [.normal "tmp"] }

/-- Models `path.starts_with(base)` for an absolute `base` (the only use in
the source): the root flags must agree and the base's components must be a
component-wise list prelude of the path's. -/
def RPath.startsWithAbs (p base : RPath) : Bool :=
  p.absolute && base.absolute && base.comps.isPrefixOf p.comps

/-- Embeds `NamePattern` from `src/watcher.rs`. -/
inductive NamePat where
  | pre (s : String)
  | exact (s : String)
deriving DecidableEq, Repr

/-- Models `str::starts_with` (character-wise prelude test). -/
def strStartsWith (pre s : String) : Bool :=
  pre.data.isPrefixOf s.data

/-- Embeds `NamePattern::matches`: `pre s` is `candidate.starts_with(s)`,
`exact s` is `candidate == s`. -/
def NamePat.matches : NamePat → String → Bool
  | .pre s, c => strStartsWith s c
  | .exact s, c => c == s

/-- Embeds `ForwardedAgentPattern` from `src/watcher.rs`. -/
structure ForwardedAgentPattern where
  dir_pattern : NamePat
  file_pattern : NamePat
deriving DecidableEq, Repr

/-- Embeds `FORWARDED_AGENT_PATTERNS`:
`/tmp/ssh-*/agent.*` and `/tmp/auth-agent*/listener.sock`. -/
def FORWARDED_AGENT_PATTERNS : List ForwardedAgentPattern :=
  [{ dir_pattern := .pre "ssh-", file_pattern := .pre "agent." },
   { dir_pattern := .pre "auth-agent", file_pattern := .exact "listener.sock" }]

/-- Embeds `is_ssh_forwarded_agent` from `src/watcher.rs`: a pure predicate
on the path's shape (no I/O oracle appears in its signature). -/
def is_ssh_forwarded_agent (p : RPath) : Bool :=
  if !(p.startsWithAbs tmpDir) then false
  else
    match (p.parent.bind RPath.fileName), p.fileName with
    | some parentName, some fname =>
        FORWARDED_AGENT_PATTERNS.any fun pat =>
          pat.dir_pattern.matches parentName && pat.file_pattern.matches fname
    | _, _ => false

/-- The specification's characterisation of a forwarded-agent socket path
(spec §4.2 / P4), written from the spec's words, independent of
`is_ssh_forwarded_agent`: under `/tmp`, parent name and file name both
present, and matching one of the two parent/file pattern rows. -/
def ForwardedAgentSpec (p : RPath) : Prop :=
  p.startsWithAbs tmpDir = true ∧
  ∃ pn fn, (p.parent.bind RPath.fileName) = some pn ∧ p.fileName = some fn ∧
    ((strStartsWith "ssh-" pn = true ∧ strStartsWith "agent." fn = true) ∨
     (strStartsWith "auth-agent" pn = true ∧ fn = "listener.sock"))

/-- C4.  `is_ssh_forwarded_agent` holds exactly on the spec's forwarded-agent
paths: under `/tmp`, with both a parent name and a file name present, and
matching a parent pattern together with its corresponding file pattern; any
path not under `/tmp` is rejected. -/
theorem c4_forwarded_agent_iff (p : RPath) :
    (is_ssh_forwarded_agent p = true ↔ ForwardedAgentSpec p) ∧
    (p.startsWithAbs tmpDir = false → is_ssh_forwarded_agent p = false) := by
  constructor
  · unfold is_ssh_forwarded_agent ForwardedAgentSpec
    by_cases ht : p.startsWithAbs tmpDir = true
    · simp only [ht, Bool.not_true, Bool.false_eq_true, if_false, true_and]
      cases hpn : p.parent.bind RPath.fileName with
      | none => simp [hpn]
      | some pn =>
        cases hfn : p.fileName with
        | none => simp
        | some fn =>
          simp only [FORWARDED_AGENT_PATTERNS, NamePat.matches, List.any_cons,
            List.any_nil, Bool.or_false, Bool.or_eq_true, Bool.and_eq_true]
          constructor
          · rintro (⟨h1, h2⟩ | ⟨h1, h2⟩)
            · exact ⟨pn, fn, rfl, rfl, Or.inl ⟨h1, h2⟩⟩
            · exact ⟨pn, fn, rfl, rfl, Or.inr ⟨h1, by simpa using h2⟩⟩
          · rintro ⟨pn', fn', hpn', hfn', hd⟩
            obtain rfl : pn = pn' := Option.some.inj hpn'
            obtain rfl : fn = fn' := Option.some.inj hfn'
            rcases hd with ⟨h1, h2⟩ | ⟨h1, h2⟩
            · exact Or.inl ⟨h1, h2⟩
            · exact Or.inr ⟨h1, by simp [h2]⟩
    · have ht' : p.startsWithAbs tmpDir = false := by
        cases h : p.startsWithAbs tmpDir
        · rfl
        · exact absurd h ht
      simp [ht', ForwardedAgentSpec]
  · intro hf
    simp [is_ssh_forwarded_agent, hf]

/-- Witness for `c4_forwarded_agent_iff` on concrete paths (drawn from the
source's unit tests). -/
theorem c4_forwarded_agent_iff_witness :
    ForwardedAgentSpec
      { absolute := true,
        comps := [.normal "tmp", .normal "ssh-kDBDw0c18X", .normal "agent.34640"] } ∧
    is_ssh_forwarded_agent
      { absolute := false, comps := [.normal "ssh-abc", .normal "agent.123"] } = false :=
  ⟨(c4_forwarded_agent_iff _).1.mp (by decide),
   (c4_forwarded_agent_iff _).2 (by decide)⟩

/-! Section: Control protocol types (`src/control/protocol.rs`) -/

/-- Embeds `WatcherStatus`. -/
inductive WatcherStatus where
  | Active
  | PollingFallback (reason : String)
  | Disabled
deriving DecidableEq, Repr

/-- Embeds `StatusInfo` (`u64`/`u32`/`usize` fields as `Nat`). -/
structure StatusInfo where
  version : String
  git_commit : String
  uptime_secs : Nat
  pid : Nat
  listening_on : String
  control_socket : String
  watch_enabled : Bool
  watcher_status : WatcherStatus
  socket_count : Nat
  key_count : Option Nat
deriving DecidableEq, Repr

/-- Embeds `KeyInfo`. -/
structure KeyInfo where
  fingerprint : String
  key_type : String
  bits : Option Nat
  comment : String
  source_socket : String
deriving DecidableEq, Repr

/-- Embeds `SocketHealthStatus`. -/
inductive SocketHealthStatus where
  | Healthy
  | Missing
  | ConnectionFailed
  | ProtocolError
  | QueryFailed
deriving DecidableEq, Repr

/-- Embeds `SocketHealthInfo`. -/
structure SocketHealthInfo where
  path : String
  status : SocketHealthStatus
  key_count : Option Nat
  error : Option String
deriving DecidableEq, Repr

/-- Embeds `HealthCheckResult`. -/
structure HealthCheckResult where
  sockets : List SocketHealthInfo
  healthy_count : Nat
  unhealthy_count : Nat
  removed : List String
deriving DecidableEq, Repr

/-- Embeds `ControlRequest`. -/
inductive ControlRequest where
  | Status
  | ListSockets
  | ListKeys
  | Reload
  | ValidateSockets
  | RemoveSocket (path : String)
  | AddSocket (path : String)
  | HealthCheck
  | Ping
deriving DecidableEq, Repr

/-- Embeds `ControlResponse`. -/
inductive ControlResponse where
  | Status (info : StatusInfo)
  | Sockets (sockets : List SocketInfo)
  | Keys (keys : List KeyInfo)
  | HealthCheck (result : HealthCheckResult)
  | Success (message : Option String)
  | Error (error : String)
  | Pong
deriving DecidableEq, Repr

/-! Section: Control server request handling (`src/control/server.rs`) -/

/-- Embeds the request-independent fields of `ControlServerState` (the
shared `socket_manager` is passed to `handle_request` separately, matching
the lock acquisition in the source). -/
structure ControlServerState where
  listen_path : String
  control_path : String
  watch_enabled : Bool
  watcher_status : WatcherStatus
  version : String
  git_commit : String
  pid : Nat
deriving DecidableEq, Repr

/-- Embeds `check_socket_health`.  The I/O probes are oracles:
`fs` is `path.exists()`; `connect` is `UnixStream::connect` (`none` =
success, `some e` = error text); `protoEst` is the ssh-agent-lib protocol
handshake (`none` = established, `some e` = error text).  The source never
produces `QueryFailed` and always returns `key_count = None`. -/
def check_socket_health (fs : String → Bool) (connect protoEst : String → Option String)
    (p : String) : SocketHealthStatus × Option Nat × Option String :=
  if !fs p then (.Missing, none, some "Socket file does not exist")
  else
    match connect p with
    | some e => (.ConnectionFailed, none, some ("Connection failed: " ++ e))
    | none =>
      match protoEst p with
      | some e => (.ProtocolError, none, some ("Protocol error: " ++ e))
      | none => (.Healthy, none, none)

/-- The per-socket loop of the `HealthCheck` arm of `handle_request`:
builds the result row for each snapshot path and counts healthy and
unhealthy rows. -/
def healthLoop (hc : String → SocketHealthStatus × Option Nat × Option String) :
    List String → List SocketHealthInfo × Nat × Nat
  | [] => ([], 0, 0)
  | p :: ps =>
    let r := hc p
    let rest := healthLoop hc ps
    ({ path := p, status := r.1, key_count := r.2.1, error := r.2.2 } :: rest.1,
     (if r.1 = .Healthy then rest.2.1 + 1 else rest.2.1,
      if r.1 = .Healthy then rest.2.2 else rest.2.2 + 1))

/-- The scanned-agents loop of the `Reload` arm: `add_watched` each scanned
path, counting the additions that returned `true`. -/
def addAllScanned (t : Nat) : List String → SocketManager → Nat → Nat × SocketManager
  | [], m, added => (added, m)
  | a :: rest, m, added =>
    let r := m.add_watched t a
    addAllScanned t rest r.2 (if r.1 then added + 1 else added)

/-- Embeds `handle_request` from `src/control/server.rs`.  Oracles: `fs` is
`path.exists()`; `connect`/`protoEst` as in `check_socket_health`; `scan` is
the outcome of `watcher::scan_existing_agents()`; `now` models
`SystemTime::now()` for this request. -/
def handle_request (st : ControlServerState) (fs : String → Bool)
    (connect protoEst : String → Option String)
    (scan : Except String (List String)) (now : Nat)
    (req : ControlRequest) (m : SocketManager) : ControlResponse × SocketManager :=
  match req with
  | .Ping => (.Pong, m)
  | .Status =>
    (.Status { version := st.version, git_commit := st.git_commit,
               uptime_secs := m.uptime_secs now, pid := st.pid,
               listening_on := st.listen_path, control_socket := st.control_path,
               watch_enabled := st.watch_enabled, watcher_status := st.watcher_status,
               socket_count := m.total_count, key_count := none }, m)
  | .ListSockets => (.Sockets (m.get_socket_info fs), m)
  | .ListKeys =>
    (.Error "ListKeys not yet implemented - requires upstream agent queries", m)
  | .Reload =>
    if !st.watch_enabled then (.Error "SSH forwarding watch is not enabled", m)
    else
      match scan with
      | .ok agents =>
        let r := addAllScanned now agents m 0
        let v := r.2.validate_and_cleanup fs
        (.Success (some ("Reload complete: " ++ toString r.1 ++ " added, " ++
          toString v.1.length ++ " removed")), v.2)
      | .error e => (.Error ("Failed to scan for agents: " ++ e), m)
  | .ValidateSockets =>
    let v := m.validate_and_cleanup fs
    if v.1.isEmpty then (.Success (some "All sockets healthy"), v.2)
    else
      (.Success (some ("Removed " ++ toString v.1.length ++ " stale socket(s): " ++
        String.intercalate ", " v.1)), v.2)
  | .AddSocket p =>
    if !fs p then (.Error ("Socket does not exist: " ++ p), m)
    else if m.is_watched p || m.is_configured p then
      (.Error ("Socket already tracked: " ++ p), m)
    else
      let r := m.add_watched now p
      if r.1 then (.Success (some ("Added socket: " ++ p)), r.2)
      else (.Error ("Failed to add socket: " ++ p), r.2)
  | .RemoveSocket p =>
    if m.is_configured p then
      (.Error ("Cannot remove configured socket: " ++ p ++ " (edit config file instead)"), m)
    else
      let r := m.remove_watched p
      if r.1 then (.Success (some ("Removed socket: " ++ p)), r.2)
      else (.Error ("Socket not found in watched list: " ++ p), r.2)
  | .HealthCheck =>
    let sockets := m.get_ordered_sockets
    let loop := healthLoop (check_socket_health fs connect protoEst) sockets
    let v := m.validate_and_cleanup fs
    (.HealthCheck { sockets := loop.1, healthy_count := loop.2.1,
                    unhealthy_count := loop.2.2, removed := v.1 }, v.2)

lemma split_append_one (L x mid rest p : String) (h : L = x ++ mid ++ rest) :
    ∃ a b, L ++ p = a ++ mid ++ b :=
  ⟨x, rest ++ p, by rw [h, String.append_assoc (x ++ mid) rest p]⟩

lemma split_append_two (L x mid rest p S : String) (h : L = x ++ mid ++ rest) :
    ∃ a b, L ++ p ++ S = a ++ mid ++ b := by
  refine ⟨x, rest ++ p ++ S, ?_⟩
  rw [h, String.append_assoc (x ++ mid) rest p,
    String.append_assoc (x ++ mid) (rest ++ p) S]

/-- C5.  The `AddSocket` control handler adds `p` to the watched set and
replies `Success` exactly when `p` exists on disk and is tracked neither as
watched nor as configured; in every other case the registry is unchanged and
the reply is an `Error` — mentioning `does not exist` when `p` is absent on
disk, and `already tracked` when `p` is already tracked; in particular a
second `AddSocket` of the same existing path reports `already tracked` and
leaves the registry unchanged (idempotence). -/
theorem c5_add_socket (st : ControlServerState) (fs : String → Bool)
    (connect protoEst : String → Option String) (scan : Except String (List String))
    (now now' : Nat) (p : String) (m : SocketManager) :
    (fs p = false →
      handle_request st fs connect protoEst scan now (.AddSocket p) m =
        (.Error ("Socket does not exist: " ++ p), m) ∧
      ∃ a b, ("Socket does not exist: " ++ p) = a ++ "does not exist" ++ b) ∧
    (fs p = true → m.is_watched p = false → m.is_configured p = false →
      handle_request st fs connect protoEst scan now (.AddSocket p) m =
        (.Success (some ("Added socket: " ++ p)), (m.add_watched now p).2) ∧
      ((m.add_watched now p).2).is_watched p = true) ∧
    (fs p = true → (m.is_watched p = true ∨ m.is_configured p = true) →
      handle_request st fs connect protoEst scan now (.AddSocket p) m =
        (.Error ("Socket already tracked: " ++ p), m) ∧
      ∃ a b, ("Socket already tracked: " ++ p) = a ++ "already tracked" ++ b) ∧
    (fs p = true → m.is_watched p = false → m.is_configured p = false →
      handle_request st fs connect protoEst scan now' (.AddSocket p)
          (handle_request st fs connect protoEst scan now (.AddSocket p) m).2 =
        (.Error ("Socket already tracked: " ++ p),
         (handle_request st fs connect protoEst scan now (.AddSocket p) m).2)) := by
  have haddw : ∀ (t : Nat), m.is_watched p = false →
      ((m.add_watched t p).2).is_watched p = true := by
    intro t hnw
    have : ¬(m.is_watched p = true) := by simp [hnw]
    simp only [SocketManager.add_watched, this, if_neg, Bool.false_eq_true, if_false]
    apply (is_watched_eq_mem _ p).mpr
    simp [WatchedSocket.mk_new]
  refine ⟨?_, ?_, ?_, ?_⟩
  · intro hfs
    refine ⟨by simp [handle_request, hfs], ?_⟩
    exact split_append_one _ "Socket " "does not exist" ": " p (by decide)
  · intro hfs hnw hnc
    have hr : (m.add_watched now p).1 = true := by
      simp [SocketManager.add_watched, hnw]
    refine ⟨?_, haddw now hnw⟩
    simp [handle_request, hfs, hnw, hnc, hr]
  · intro hfs htr
    refine ⟨?_, split_append_one _ "Socket " "already tracked" ": " p (by decide)⟩
    rcases htr with hw | hc
    · simp [handle_request, hfs, hw]
    · simp [handle_request, hfs, hc]
  · intro hfs hnw hnc
    have hr : (m.add_watched now p).1 = true := by
      simp [SocketManager.add_watched, hnw]
    have hstate : (handle_request st fs connect protoEst scan now (.AddSocket p) m).2 =
        (m.add_watched now p).2 := by
      simp [handle_request, hfs, hnw, hnc, hr]
    rw [hstate]
    have hw' : ((m.add_watched now p).2).is_watched p = true := haddw now hnw
    simp [handle_request, hfs, hw']

/-- Witness for `c5_add_socket`: adding a fresh existing path succeeds, and
re-adding it reports `already tracked`. -/
theorem c5_add_socket_witness :
    handle_request
        { listen_path := "l", control_path := "c", watch_enabled := false,
          watcher_status := .Disabled, version := "v", git_commit := "g", pid := 1 }
        (fun _ => true) (fun _ => none) (fun _ => none) (.ok []) 7
        (.AddSocket "/s") (SocketManager.mk_new [] 0) =
      (.Success (some ("Added socket: " ++ "/s")),
       ((SocketManager.mk_new [] 0).add_watched 7 "/s").2) :=
  ((c5_add_socket _ (fun _ => true) (fun _ => none) (fun _ => none) (.ok []) 7 8 "/s"
      (SocketManager.mk_new [] 0)).2.1 rfl (by decide) (by decide)).1

/-- C6.  The `RemoveSocket` control handler refuses (with an `Error`
mentioning `configured`) and leaves the registry unchanged when `p` is
configured; otherwise it removes `p` from watched and replies `Success` when
`p` was watched, and replies an `Error` with the registry unchanged when `p`
was not tracked at all. -/
theorem c6_remove_socket (st : ControlServerState) (fs : String → Bool)
    (connect protoEst : String → Option String) (scan : Except String (List String))
    (now : Nat) (p : String) (m : SocketManager) :
    (m.is_configured p = true →
      handle_request st fs connect protoEst scan now (.RemoveSocket p) m =
        (.Error ("Cannot remove configured socket: " ++ p ++ " (edit config file instead)"), m) ∧
      ∃ a b, ("Cannot remove configured socket: " ++ p ++ " (edit config file instead)") =
        a ++ "configured" ++ b) ∧
    (m.is_configured p = false → m.is_watched p = true →
      handle_request st fs connect protoEst scan now (.RemoveSocket p) m =
        (.Success (some ("Removed socket: " ++ p)), (m.remove_watched p).2) ∧
      ((m.remove_watched p).2).is_watched p = false ∧
      ((m.remove_watched p).2).configured_sockets = m.configured_sockets) ∧
    (m.is_configured p = false → m.is_watched p = false →
      handle_request st fs connect protoEst scan now (.RemoveSocket p) m =
        (.Error ("Socket not found in watched list: " ++ p), m)) := by
  refine ⟨?_, ?_, ?_⟩
  · intro hc
    refine ⟨by simp [handle_request, hc], ?_⟩
    exact split_append_two _ "Cannot remove " "configured" " socket: " p
      " (edit config file instead)" (by decide)
  · intro hc hw
    have hr : (m.remove_watched p).1 = true := by
      simp [SocketManager.remove_watched, hw]
    refine ⟨by simp [handle_request, hc, hw, hr], ?_, ?_⟩
    · simp only [SocketManager.remove_watched, hw, if_pos]
      cases h : SocketManager.is_watched
          { m with watched_sockets := m.watched_sockets.filter (fun w => w.path ≠ p) } p
      · rfl
      · exfalso
        have hmem := (is_watched_eq_mem _ p).mp h
        rcases List.mem_map.mp hmem with ⟨w, hwmem, hwp⟩
        have := List.of_mem_filter hwmem
        simp [hwp] at this
    · simp [SocketManager.remove_watched, hw]
  · intro hc hw
    simp [handle_request, hc, SocketManager.remove_watched, hw]

/-- Witness for `c6_remove_socket`: removing a configured path is refused
with the registry unchanged. -/
theorem c6_remove_socket_witness :
    handle_request
        { listen_path := "l", control_path := "c", watch_enabled := false,
          watcher_status := .Disabled, version := "v", git_commit := "g", pid := 1 }
        (fun _ => true) (fun _ => none) (fun _ => none) (.ok []) 7
        (.RemoveSocket "/cfg") (SocketManager.mk_new ["/cfg"] 0) =
      (.Error ("Cannot remove configured socket: " ++ "/cfg" ++ " (edit config file instead)"),
       SocketManager.mk_new ["/cfg"] 0) :=
  ((c6_remove_socket _ (fun _ => true) (fun _ => none) (fun _ => none) (.ok []) 7 "/cfg"
      (SocketManager.mk_new ["/cfg"] 0)).1 (by decide)).1

/-- C7.  For every `ListKeys` control request the handler replies an `Error`
(`ListKeys not yet implemented`) and never a `Keys` response, leaving the
registry unchanged — the code contradicts the specified semantics
(`Returns KeyInfo list by querying every upstream`). -/
theorem c7_listkeys_unimplemented (st : ControlServerState) (fs : String → Bool)
    (connect protoEst : String → Option String) (scan : Except String (List String))
    (now : Nat) (m : SocketManager) :
    handle_request st fs connect protoEst scan now .ListKeys m =
      (.Error "ListKeys not yet implemented - requires upstream agent queries", m) :=
  rfl

lemma healthLoop_spec (hc : String → SocketHealthStatus × Option Nat × Option String)
    (ps : List String) :
    (healthLoop hc ps).1.map (·.path) = ps ∧
    (healthLoop hc ps).1.length = ps.length ∧
    (healthLoop hc ps).2.1 + (healthLoop hc ps).2.2 = ps.length ∧
    (healthLoop hc ps).2.1 =
      (healthLoop hc ps).1.countP (fun r => r.status == SocketHealthStatus.Healthy) := by
  induction ps with
  | nil => exact ⟨rfl, rfl, rfl, rfl⟩
  | cons p ps ih =>
    rcases ih with ⟨ih1, ih2, ih3, ih4⟩
    have e0 : (healthLoop hc (p :: ps)).1 =
        { path := p, status := (hc p).1, key_count := (hc p).2.1,
          error := (hc p).2.2 } :: (healthLoop hc ps).1 := rfl
    have e1 : (healthLoop hc (p :: ps)).2.1 =
        if (hc p).1 = SocketHealthStatus.Healthy then (healthLoop hc ps).2.1 + 1
        else (healthLoop hc ps).2.1 := rfl
    have e2 : (healthLoop hc (p :: ps)).2.2 =
        if (hc p).1 = SocketHealthStatus.Healthy then (healthLoop hc ps).2.2
        else (healthLoop hc ps).2.2 + 1 := rfl
    refine ⟨by rw [e0]; simp [ih1], by rw [e0]; simp [ih2], ?_, ?_⟩
    · rw [e1, e2]
      by_cases hh : (hc p).1 = SocketHealthStatus.Healthy
      · rw [if_pos hh, if_pos hh]
        simp only [List.length_cons]
        omega
      · rw [if_neg hh, if_neg hh]
        simp only [List.length_cons]
        omega
    · rw [e1, e0, List.countP_cons]
      by_cases hh : (hc p).1 = SocketHealthStatus.Healthy
      · rw [if_pos hh]
        simp [hh, ih4]
      · rw [if_neg hh]
        simp [hh, ih4]

/-- C10.  The `HealthCheck` handler returns one `SocketHealthInfo` row per
socket of the ordered snapshot taken at the start of the request (same paths,
same order), with `healthy_count` counting exactly the `Healthy` rows and
`healthy_count + unhealthy_count` equal to the number of sockets. -/
theorem c10_health_check (st : ControlServerState) (fs : String → Bool)
    (connect protoEst : String → Option String) (scan : Except String (List String))
    (now : Nat) (m : SocketManager) :
    ∃ result : HealthCheckResult,
      (handle_request st fs connect protoEst scan now .HealthCheck m).1 =
        .HealthCheck result ∧
      result.sockets.map (·.path) = m.get_ordered_sockets ∧
      result.sockets.length = m.get_ordered_sockets.length ∧
      result.healthy_count + result.unhealthy_count = result.sockets.length ∧
      result.healthy_count =
        result.sockets.countP (fun r => r.status == SocketHealthStatus.Healthy) := by
  rcases healthLoop_spec (check_socket_health fs connect protoEst) m.get_ordered_sockets
    with ⟨h1, h2, h3, h4⟩
  refine ⟨_, rfl, h1, h2, ?_, h4⟩
  rw [h2]
  exact h3

/-! Section: JSON wire encoding of the control protocol (C9)

The protocol types derive serde `Serialize`/`Deserialize` with
`#[serde(tag = "type", content = "data")]` (adjacent tagging) on the two
enums, `rename_all = "lowercase"` on `SocketSource`, `rename_all =
"snake_case"` on `SocketHealthStatus`, and `tag = "status", content =
"reason"` on `WatcherStatus`.  The encoders below produce serde's canonical
JSON for each value (struct fields in declaration order, `Option` as
`null`/value, unsigned integers as numbers); the decoders invert that
canonical form, as serde's derived deserializer does on serializer output. -/

/-- A JSON value. -/
inductive Json where
  | null
  | bool (b : Bool)
  | num (n : Nat)
  | str (s : String)
  | arr (xs : List Json)
  | obj (fields : List (String × Json))

def optStrToJson : Option String → Json
  | none => .null
  | some s => .str s

def optStrFromJson : Json → Option (Option String)
  | .null => some none
  | .str s => some (some s)
  | _ => none

def optNatToJson : Option Nat → Json
  | none => .null
  | some n => .num n

def optNatFromJson : Json → Option (Option Nat)
  | .null => some none
  | .num n => some (some n)
  | _ => none

def strFromJson : Json → Option String
  | .str s => some s
  | _ => none

/-- Decode every element of a JSON array (the model of deserialising a
`Vec`). -/
def decodeAll (dec : Json → Option α) : List Json → Option (List α)
  | [] => some []
  | j :: js =>
    match dec j with
    | none => none
    | some x =>
      match decodeAll dec js with
      | none => none
      | some xs => some (x :: xs)

lemma decodeAll_map_enc (dec : Json → Option α) (enc : α → Json)
    (h : ∀ x, dec (enc x) = some x) (l : List α) :
    decodeAll dec (l.map enc) = some l := by
  induction l with
  | nil => rfl
  | cons x xs ih => simp [decodeAll, h x, ih]

/-- Serialisation of `SocketSource` (`rename_all = "lowercase"`). -/
def SocketSource.toJson : SocketSource → Json
  | .Configured => .str "configured"
  | .Watched => .str "watched"

def socketSourceFromJson : Json → Option SocketSource
  | .str "configured" => some .Configured
  | .str "watched" => some .Watched
  | _ => none

lemma socketSource_roundtrip (x : SocketSource) :
    socketSourceFromJson x.toJson = some x := by
  cases x <;> rfl

/-- Serialisation of `SocketHealthStatus` (`rename_all = "snake_case"`). -/
def SocketHealthStatus.toJson : SocketHealthStatus → Json
  | .Healthy => .str "healthy"
  | .Missing => .str "missing"
  | .ConnectionFailed => .str "connection_failed"
  | .ProtocolError => .str "protocol_error"
  | .QueryFailed => .str "query_failed"

def socketHealthStatusFromJson : Json → Option SocketHealthStatus
  | .str "healthy" => some .Healthy
  | .str "missing" => some .Missing
  | .str "connection_failed" => some .ConnectionFailed
  | .str "protocol_error" => some .ProtocolError
  | .str "query_failed" => some .QueryFailed
  | _ => none

lemma socketHealthStatus_roundtrip (x : SocketHealthStatus) :
    socketHealthStatusFromJson x.toJson = some x := by
  cases x <;> rfl

/-- Serialisation of `WatcherStatus`
(`tag = "status", content = "reason"`). -/
def WatcherStatus.toJson : WatcherStatus → Json
  | .Active => .obj [("status", .str "Active")]
  | .PollingFallback r => .obj [("status", .str "PollingFallback"), ("reason", .str r)]
  | .Disabled => .obj [("status", .str "Disabled")]

def watcherStatusFromJson : Json → Option WatcherStatus
  | .obj [("status", .str "Active")] => some .Active
  | .obj [("status", .str "Disabled")] => some .Disabled
  | .obj [("status", .str "PollingFallback"), ("reason", .str r)] =>
      some (.PollingFallback r)
  | _ => none

lemma watcherStatus_roundtrip (x : WatcherStatus) :
    watcherStatusFromJson x.toJson = some x := by
  cases x <;> rfl

/-- Serialisation of `SocketInfo` (struct: fields in declaration order). -/
def SocketInfo.toJson (si : SocketInfo) : Json :=
  .obj [("path", .str si.path), ("source", si.source.toJson),
        ("added_at", optStrToJson si.added_at), ("healthy", .bool si.healthy),
        ("last_health_check", optStrToJson si.last_health_check),
        ("key_count", optNatToJson si.key_count), ("order", .num si.order)]

def socketInfoFromJson : Json → Option SocketInfo
  | .obj [("path", .str p), ("source", src), ("added_at", aa),
          ("healthy", .bool h), ("last_health_check", lhc),
          ("key_count", kc), ("order", .num o)] =>
    match socketSourceFromJson src, optStrFromJson aa, optStrFromJson lhc,
        optNatFromJson kc with
    | some src', some aa', some lhc', some kc' =>
        some { path := p, source := src', added_at := aa', healthy := h,
               last_health_check := lhc', key_count := kc', order := o }
    | _, _, _, _ => none
  | _ => none

lemma socketInfo_roundtrip (x : SocketInfo) :
    socketInfoFromJson x.toJson = some x := by
  cases x with
  | mk p src aa h lhc kc o =>
    cases src <;> cases aa <;> cases lhc <;> cases kc <;> rfl

/-- Serialisation of `StatusInfo`. -/
def StatusInfo.toJson (x : StatusInfo) : Json :=
  .obj [("version", .str x.version), ("git_commit", .str x.git_commit),
        ("uptime_secs", .num x.uptime_secs), ("pid", .num x.pid),
        ("listening_on", .str x.listening_on),
        ("control_socket", .str x.control_socket),
        ("watch_enabled", .bool x.watch_enabled),
        ("watcher_status", x.watcher_status.toJson),
        ("socket_count", .num x.socket_count),
        ("key_count", optNatToJson x.key_count)]

def statusInfoFromJson : Json → Option StatusInfo
  | .obj [("version", .str v), ("git_commit", .str g), ("uptime_secs", .num u),
          ("pid", .num pid), ("listening_on", .str lo),
          ("control_socket", .str cs), ("watch_enabled", .bool we),
          ("watcher_status", ws), ("socket_count", .num sc),
          ("key_count", kc)] =>
    match watcherStatusFromJson ws, optNatFromJson kc with
    | some ws', some kc' =>
        some { version := v, git_commit := g, uptime_secs := u, pid := pid,
               listening_on := lo, control_socket := cs, watch_enabled := we,
               watcher_status := ws', socket_count := sc, key_count := kc' }
    | _, _ => none
  | _ => none

lemma statusInfo_roundtrip (x : StatusInfo) :
    statusInfoFromJson x.toJson = some x := by
  cases x with
  | mk v g u pid lo cs we ws sc kc =>
    cases ws <;> cases kc <;> rfl

/-- Serialisation of `KeyInfo`. -/
def KeyInfo.toJson (x : KeyInfo) : Json :=
  .obj [("fingerprint", .str x.fingerprint), ("key_type", .str x.key_type),
        ("bits", optNatToJson x.bits), ("comment", .str x.comment),
        ("source_socket", .str x.source_socket)]

def keyInfoFromJson : Json → Option KeyInfo
  | .obj [("fingerprint", .str f), ("key_type", .str kt), ("bits", b),
          ("comment", .str c), ("source_socket", .str ss)] =>
    match optNatFromJson b with
    | some b' =>
        some { fingerprint := f, key_type := kt, bits := b', comment := c,
               source_socket := ss }
    | none => none
  | _ => none

lemma keyInfo_roundtrip (x : KeyInfo) :
    keyInfoFromJson x.toJson = some x := by
  cases x with
  | mk f kt b c ss => cases b <;> rfl

/-- Serialisation of `SocketHealthInfo`. -/
def SocketHealthInfo.toJson (x : SocketHealthInfo) : Json :=
  .obj [("path", .str x.path), ("status", x.status.toJson),
        ("key_count", optNatToJson x.key_count),
        ("error", optStrToJson x.error)]

def socketHealthInfoFromJson : Json → Option SocketHealthInfo
  | .obj [("path", .str p), ("status", s), ("key_count", kc), ("error", e)] =>
    match socketHealthStatusFromJson s, optNatFromJson kc, optStrFromJson e with
    | some s', some kc', some e' =>
        some { path := p, status := s', key_count := kc', error := e' }
    | _, _, _ => none
  | _ => none

lemma socketHealthInfo_roundtrip (x : SocketHealthInfo) :
    socketHealthInfoFromJson x.toJson = some x := by
  cases x with
  | mk p s kc e => cases s <;> cases kc <;> cases e <;> rfl

/-- Serialisation of `HealthCheckResult`. -/
def HealthCheckResult.toJson (x : HealthCheckResult) : Json :=
  .obj [("sockets", .arr (x.sockets.map SocketHealthInfo.toJson)),
        ("healthy_count", .num x.healthy_count),
        ("unhealthy_count", .num x.unhealthy_count),
        ("removed", .arr (x.removed.map Json.str))]

def healthCheckResultFromJson : Json → Option HealthCheckResult
  | .obj [("sockets", .arr xs), ("healthy_count", .num h),
          ("unhealthy_count", .num u), ("removed", .arr rs)] =>
    match decodeAll socketHealthInfoFromJson xs, decodeAll strFromJson rs with
    | some ss, some rem =>
        some { sockets := ss, healthy_count := h, unhealthy_count := u,
               removed := rem }
    | _, _ => none
  | _ => none

lemma healthCheckResult_roundtrip (x : HealthCheckResult) :
    healthCheckResultFromJson x.toJson = some x := by
  cases x with
  | mk ss h u rem =>
    simp [HealthCheckResult.toJson, healthCheckResultFromJson,
      decodeAll_map_enc socketHealthInfoFromJson SocketHealthInfo.toJson
        socketHealthInfo_roundtrip,
      decodeAll_map_enc strFromJson Json.str (fun _ => rfl)]

/-- Serialisation of `ControlRequest`
(`tag = "type", content = "data"`). -/
def ControlRequest.toJson : ControlRequest → Json
  | .Status => .obj [("type", .str "Status")]
  | .ListSockets => .obj [("type", .str "ListSockets")]
  | .ListKeys => .obj [("type", .str "ListKeys")]
  | .Reload => .obj [("type", .str "Reload")]
  | .ValidateSockets => .obj [("type", .str "ValidateSockets")]
  | .RemoveSocket p => .obj [("type", .str "RemoveSocket"),
                             ("data", .obj [("path", .str p)])]
  | .AddSocket p => .obj [("type", .str "AddSocket"),
                          ("data", .obj [("path", .str p)])]
  | .HealthCheck => .obj [("type", .str "HealthCheck")]
  | .Ping => .obj [("type", .str "Ping")]

def controlRequestFromJson : Json → Option ControlRequest
  | .obj [("type", .str "Status")] => some .Status
  | .obj [("type", .str "ListSockets")] => some .ListSockets
  | .obj [("type", .str "ListKeys")] => some .ListKeys
  | .obj [("type", .str "Reload")] => some .Reload
  | .obj [("type", .str "ValidateSockets")] => some .ValidateSockets
  | .obj [("type", .str "RemoveSocket"), ("data", .obj [("path", .str p)])] =>
      some (.RemoveSocket p)
  | .obj [("type", .str "AddSocket"), ("data", .obj [("path", .str p)])] =>
      some (.AddSocket p)
  | .obj [("type", .str "HealthCheck")] => some .HealthCheck
  | .obj [("type", .str "Ping")] => some .Ping
  | _ => none

lemma controlRequest_roundtrip (x : ControlRequest) :
    controlRequestFromJson x.toJson = some x := by
  cases x <;> rfl

/-- Serialisation of `ControlResponse`
(`tag = "type", content = "data"`). -/
def ControlResponse.toJson : ControlResponse → Json
  | .Status info => .obj [("type", .str "Status"), ("data", info.toJson)]
  | .Sockets ss => .obj [("type", .str "Sockets"),
      ("data", .obj [("sockets", .arr (ss.map SocketInfo.toJson))])]
  | .Keys ks => .obj [("type", .str "Keys"),
      ("data", .obj [("keys", .arr (ks.map KeyInfo.toJson))])]
  | .HealthCheck r => .obj [("type", .str "HealthCheck"), ("data", r.toJson)]
  | .Success msg => .obj [("type", .str "Success"),
      ("data", .obj [("message", optStrToJson msg)])]
  | .Error e => .obj [("type", .str "Error"),
      ("data", .obj [("error", .str e)])]
  | .Pong => .obj [("type", .str "Pong")]

def controlResponseFromJson : Json → Option ControlResponse
  | .obj [("type", .str "Status"), ("data", d)] =>
    match statusInfoFromJson d with
    | some info => some (.Status info)
    | none => none
  | .obj [("type", .str "Sockets"), ("data", .obj [("sockets", .arr xs)])] =>
    match decodeAll socketInfoFromJson xs with
    | some ss => some (.Sockets ss)
    | none => none
  | .obj [("type", .str "Keys"), ("data", .obj [("keys", .arr xs)])] =>
    match decodeAll keyInfoFromJson xs with
    | some ks => some (.Keys ks)
    | none => none
  | .obj [("type", .str "HealthCheck"), ("data", d)] =>
    match healthCheckResultFromJson d with
    | some r => some (.HealthCheck r)
    | none => none
  | .obj [("type", .str "Success"), ("data", .obj [("message", msg)])] =>
    match optStrFromJson msg with
    | some m => some (.Success m)
    | none => none
  | .obj [("type", .str "Error"), ("data", .obj [("error", .str e)])] =>
      some (.Error e)
  | .obj [("type", .str "Pong")] => some .Pong
  | _ => none

lemma controlResponse_roundtrip (x : ControlResponse) :
    controlResponseFromJson x.toJson = some x := by
  cases x with
  | Status info =>
    have h : controlResponseFromJson (ControlResponse.Status info).toJson =
        (match statusInfoFromJson (StatusInfo.toJson info) with
         | some i => some (ControlResponse.Status i)
         | none => none) := rfl
    rw [h, statusInfo_roundtrip]
  | Sockets ss =>
    have h : controlResponseFromJson (ControlResponse.Sockets ss).toJson =
        (match decodeAll socketInfoFromJson (ss.map SocketInfo.toJson) with
         | some l => some (ControlResponse.Sockets l)
         | none => none) := rfl
    rw [h, decodeAll_map_enc socketInfoFromJson SocketInfo.toJson socketInfo_roundtrip]
  | Keys ks =>
    have h : controlResponseFromJson (ControlResponse.Keys ks).toJson =
        (match decodeAll keyInfoFromJson (ks.map KeyInfo.toJson) with
         | some l => some (ControlResponse.Keys l)
         | none => none) := rfl
    rw [h, decodeAll_map_enc keyInfoFromJson KeyInfo.toJson keyInfo_roundtrip]
  | HealthCheck r =>
    have h : controlResponseFromJson (ControlResponse.HealthCheck r).toJson =
        (match healthCheckResultFromJson (HealthCheckResult.toJson r) with
         | some hr => some (ControlResponse.HealthCheck hr)
         | none => none) := rfl
    rw [h, healthCheckResult_roundtrip]
  | Success msg => cases msg <;> rfl
  | Error e => rfl
  | Pong => rfl

/-- C9.  The control-protocol JSON encoding round-trips: deserialising the
serialisation of any `ControlRequest` or `ControlResponse` value — including
the nested `StatusInfo`, `SocketInfo`, `KeyInfo`, `WatcherStatus` and
`HealthCheckResult` payloads — yields the original value. -/
theorem c9_json_roundtrip :
    (∀ r : ControlRequest, controlRequestFromJson r.toJson = some r) ∧
    (∀ res : ControlResponse, controlResponseFromJson res.toJson = some res) ∧
    (∀ x : StatusInfo, statusInfoFromJson x.toJson = some x) ∧
    (∀ x : SocketInfo, socketInfoFromJson x.toJson = some x) ∧
    (∀ x : KeyInfo, keyInfoFromJson x.toJson = some x) ∧
    (∀ x : WatcherStatus, watcherStatusFromJson x.toJson = some x) ∧
    (∀ x : HealthCheckResult, healthCheckResultFromJson x.toJson = some x) :=
  ⟨controlRequest_roundtrip, controlResponse_roundtrip, statusInfo_roundtrip,
   socketInfo_roundtrip, keyInfo_roundtrip, watcherStatus_roundtrip,
   healthCheckResult_roundtrip⟩

end SshAgentMux
